import Mathlib

/-!
Verification of the RPC bridge of the UnrealIRCd web panel
(`src/backend/rpc/client.go`), a JSON-RPC 2.0 client multiplexing
concurrent calls over one WebSocket (or UNIX-socket) connection.

The shallow embedding below translates the relevant parts of `client.go`:

* JSON values and the JSON-RPC envelope structs `RPCRequest`, `RPCResponse`,
  `RPCError` (client.go lines 33-53), with Go's `encoding/json` behaviour for
  the struct tags (`params,omitempty` etc.) made explicit.
* The client's mutable state: the `reqID` counter (a Go `int64`, which wraps
  on overflow) and the `pending` map from request IDs to response channels
  (client.go lines 20-30).  Because every mutation of this state in the source
  happens under `c.mutex`, an interleaved execution is a sequence of atomic
  operations; we model it as a trace of `Op`s acting on a `CState`.
* The operations on that state: registration of a fresh call (`call`,
  lines 349-363), response routing by the WebSocket receive loop
  (`handleMessages`, lines 329-339), deletion on timeout / context
  cancellation (`call`, lines 415-428), and drain-on-disconnect
  (`Disconnect`, lines 595-617).

Ghost fields (`allocs`, `sent`, `delivered`, `resolved`, `closed`) record the
observable history of a trace; they are write-only and never influence the
behaviour of a step.
-/

/-- A JSON value (the meaning of Go's `interface\x7b\x7d` after
`encoding/json` unmarshalling, and of marshalled structs). -/
inductive Json where
  | null : Json
  | bool (b : Bool) : Json
  | num (n : Int) : Json
  | str (s : String) : Json
  | arr (elems : List Json) : Json
  | obj (fields : List (String × Json)) : Json

/-- `RPCError` (client.go lines 49-53): a JSON-RPC 2.0 error object. -/
structure RPCError where
  code : Int
  message : String
  data : String

/-- `RPCRequest` (client.go lines 33-38): a JSON-RPC 2.0 request.  The Go
field `Params interface\x7b\x7d` is `none` exactly when the interface is nil
(tag `params,omitempty` then omits the key). -/
structure RPCRequest where
  jsonrpc : String
  method : String
  params : Option Json
  id : Int

/-- `RPCResponse` (client.go lines 41-46): a JSON-RPC 2.0 response.
`result` is Go's `json.RawMessage` (nil when absent), `error` a nullable
pointer. -/
structure RPCResponse where
  jsonrpc : String
  result : Option Json
  error : Option RPCError
  id : Int

/-- Wrap an integer into the `int64` range, as Go's `c.reqID++` does on
overflow (two's-complement wraparound). -/
def wrap64 (z : Int) : Int :=
  (z + 2 ^ 63) % 2 ^ 64 - 2 ^ 63

/-- Lookup in the `pending` map, modelled as an association list
(`c.pending[id]`). -/
def pLookup : List (Int × Nat) → Int → Option Nat
  | [], _ => none
  | e :: rest, i => if e.1 = i then some e.2 else pLookup rest i

/-- Go's `delete(c.pending, id)`: remove the key entirely. -/
def pRemove : List (Int × Nat) → Int → List (Int × Nat)
  | [], _ => []
  | e :: rest, i => if e.1 = i then pRemove rest i else e :: pRemove rest i

/-- Go's `c.pending[id] = ch`: bind the key, replacing any previous
binding. -/
def pInsert (p : List (Int × Nat)) (i : Int) (w : Nat) : List (Int × Nat) :=
  (i, w) :: pRemove p i

/-- The client's shared mutable state (client.go lines 20-30) together with
ghost history fields.  A response channel is identified by the index of the
caller that created it (`w : Nat`). -/
structure CState where
  /-- `c.reqID`, a Go `int64`. -/
  reqID : Int
  /-- `c.pending : map[int64]chan *RPCResponse`, as an association list. -/
  pending : List (Int × Nat)
  /-- Ghost: every request ID ever allocated by `call`, in order. -/
  allocs : List Int
  /-- Ghost: every request frame successfully written to the transport. -/
  sent : List RPCRequest
  /-- Ghost: every `ch <- &response` delivery to a claimed waiter. -/
  delivered : List (Nat × RPCResponse)
  /-- Ghost: IDs whose pending entry was claimed (response delivery,
  timeout/cancellation deletion, or drain), in order. -/
  resolved : List Int
  /-- Ghost: waiters whose channel was `close`d by `Disconnect`. -/
  closed : List Nat

/-- `NewRPCClient` (client.go lines 105-112): zero counter, empty pending
map. -/
def initState : CState :=
  { reqID := 0, pending := [], allocs := [], sent := [], delivered := [],
    resolved := [], closed := [] }

/-- One atomic mutation of the client state.  Each constructor corresponds to
a critical section of `client.go` guarded by `c.mutex`. -/
inductive Op where
  /-- `call` lines 349-388 (successful path): `c.reqID++`, register the fresh
  ID, send the encoded `RPCRequest` frame. -/
  | call (w : Nat) (method : String) (params : Option Json) : Op
  /-- `handleMessages` lines 329-339: look the response's ID up in `pending`;
  if found, delete the entry and send the response on the channel; otherwise
  log and drop. -/
  | deliver (r : RPCResponse) : Op
  /-- `call` lines 415-428: the timeout / context-cancellation branches
  delete the caller's own entry. -/
  | cancel (i : Int) : Op
  /-- `Disconnect` lines 608-614: close every pending channel and reset the
  map. -/
  | drain : Op

/-- Atomic step of the client state machine. -/
def stepOp (s : CState) : Op → CState
  | .call w method params =>
      let i := wrap64 (s.reqID + 1)
      { s with
        reqID := i
        pending := pInsert s.pending i w
        allocs := s.allocs ++ [i]
        sent := s.sent ++ [{ jsonrpc := "2.0", method := method,
                             params := params, id := i }] }
  | .deliver r =>
      match pLookup s.pending r.id with
      | some w =>
          { s with
            pending := pRemove s.pending r.id
            delivered := s.delivered ++ [(w, r)]
            resolved := s.resolved ++ [r.id] }
      | none => s
  | .cancel i =>
      match pLookup s.pending i with
      | some _ =>
          { s with
            pending := pRemove s.pending i
            resolved := s.resolved ++ [i] }
      | none => s
  | .drain =>
      { s with
        pending := []
        resolved := s.resolved ++ s.pending.map Prod.fst
        closed := s.closed ++ s.pending.map Prod.snd }

/-- Run a trace of atomic operations. -/
def runOps (s : CState) : List Op → CState
  | [] => s
  | op :: rest => runOps (stepOp s op) rest

/-- Number of `call` dispatches in a trace. -/
def callCount : List Op → Nat
  | [] => 0
  | .call _ _ _ :: rest => callCount rest + 1
  | _ :: rest => callCount rest

/-- The ID handed out by the `k`-th `call` (counting from 0) on a fresh
client: the counter starts at 0 and is incremented before use. -/
def allocId (k : Nat) : Int :=
  wrap64 ((k : Int) + 1)

/-- After `n` calls from a fresh client, the counter holds `wrap64 n`, the
allocation history is exactly `allocId 0, …, allocId (n-1)`, and every
pending key is some `allocId k` with `k < n`. -/
def GoodAt (s : CState) (n : Nat) : Prop :=
  s.reqID = wrap64 n ∧
  s.allocs = (List.range n).map allocId ∧
  ∀ i ∈ s.pending.map Prod.fst, ∃ k : Nat, k < n ∧ i = allocId k

/-- A small concrete trace used to instantiate C1: two calls, a
timeout-cancellation of the second ID, and a third call. -/
def c1Ops : List Op :=
  [Op.call 0 "stats.get" none, Op.call 1 "user.list" none,
   Op.cancel 2, Op.call 2 "channel.list" none]

/-- Resolution accounting: for every ID, the number of resolution events
recorded so far, plus one if the ID is currently live in `pending`, never
exceeds the number of times the ID was allocated. -/
def ResInv (s : CState) : Prop :=
  ∀ i : Int,
    s.resolved.count i + (if pLookup s.pending i = none then 0 else 1)
      ≤ s.allocs.count i

/-- Concrete client state with two pending calls (IDs 1 and 2, waiters 10
and 11), to instantiate C2. -/
def c2State : CState :=
  runOps initState [Op.call 10 "stats.get" none, Op.call 11 "user.list" none]

/-- Concrete response for ID 1. -/
def c2RespA : RPCResponse :=
  { jsonrpc := "2.0", result := some (Json.obj []), error := none, id := 1 }

/-- Concrete response for ID 2. -/
def c2RespB : RPCResponse :=
  { jsonrpc := "2.0", result := some (Json.num 5), error := none, id := 2 }

/-- One iteration's input to the WebSocket receive loop: `conn.ReadJSON`
either yields a decoded response, or returns an error.  gorilla/websocket's
`ReadJSON` reports a malformed frame the same way as a transport failure —
as a non-nil error — and `handleMessages` (client.go lines 310-316) breaks
out of the loop on any of them. -/
inductive Frame where
  | good (r : RPCResponse) : Frame
  | bad : Frame

/-- `handleMessages` (client.go lines 295-343): route good frames; on the
first `ReadJSON` error, `break` — the loop exits with no drain of
`pending`. -/
def handleMessagesRun (s : CState) : List Frame → CState
  | [] => s
  | Frame.bad :: _ => s
  | Frame.good r :: rest => handleMessagesRun (stepOp s (Op.deliver r)) rest

/-- One line read by the UNIX-socket receive loop: `json.Unmarshal` either
succeeds or fails. -/
inductive SockLine where
  | good (r : RPCResponse) : SockLine
  | bad : SockLine

/-- `handleSocketMessages`'s routing (client.go lines 254-263): read-lock,
look the ID up, non-blocking send — and, unlike `handleMessages`, no
deletion of the entry. -/
def stepSockDeliver (s : CState) (r : RPCResponse) : CState :=
  match pLookup s.pending r.id with
  | some w => { s with delivered := s.delivered ++ [(w, r)] }
  | none => s

/-- `handleSocketMessages` (client.go lines 241-269): on an unmarshal
failure, log and `continue` to the next line. -/
def handleSocketMessagesRun (s : CState) : List SockLine → CState
  | [] => s
  | SockLine.bad :: rest => handleSocketMessagesRun s rest
  | SockLine.good r :: rest => handleSocketMessagesRun (stepSockDeliver s r) rest

/-- The `time.After(30 * time.Second)` deadline of `call` (client.go
line 422), in seconds. -/
def requestTimeoutSeconds : Nat := 30

/-- What the caller's buffered response channel does, if anything: a
response sent by the receive loop, or a `close` performed by `Disconnect`
(a receive on a closed channel yields a nil pointer in Go). -/
inductive ChanEvent where
  | resp (r : RPCResponse) : ChanEvent
  | closed : ChanEvent

/-- Which of the three `select` cases of `call` (client.go lines 393-428)
fires. -/
inductive WaitRes where
  | gotResp (r : RPCResponse) : WaitRes
  | gotClosed : WaitRes
  | ctxDone : WaitRes
  | timedOut : WaitRes

/-- The `select` in `call`: the earliest ready case fires (the channel event
at its time, the context at its cancellation time, the timeout at
`requestTimeoutSeconds`).  Go resolves simultaneous readiness randomly; this
model breaks ties toward the channel, then the context — the theorems below
only use it under strict orderings, where the tie-break is irrelevant. -/
def firstWait (ch : Option (Nat × ChanEvent)) (ctx : Option Nat) : WaitRes :=
  match ch, ctx with
  | some (t₁, e), some t₂ =>
      if t₁ ≤ t₂ ∧ t₁ ≤ requestTimeoutSeconds then
        match e with
        | ChanEvent.resp r => WaitRes.gotResp r
        | ChanEvent.closed => WaitRes.gotClosed
      else if t₂ ≤ requestTimeoutSeconds then WaitRes.ctxDone
      else WaitRes.timedOut
  | some (t₁, e), none =>
      if t₁ ≤ requestTimeoutSeconds then
        match e with
        | ChanEvent.resp r => WaitRes.gotResp r
        | ChanEvent.closed => WaitRes.gotClosed
      else WaitRes.timedOut
  | none, some t₂ =>
      if t₂ ≤ requestTimeoutSeconds then WaitRes.ctxDone else WaitRes.timedOut
  | none, none => WaitRes.timedOut

/-- The errors (and panic) `call` can produce.  Receiving from a channel
closed by `Disconnect` yields `resp == nil`, and the very next statement
`resp.Error != nil` (client.go line 397) dereferences the nil pointer — a
runtime panic, modelled as `nilPanic`. -/
inductive CallErr where
  | rpc (code : Int) (message : String) : CallErr
  | requestTimeout : CallErr
  | ctxCanceled : CallErr
  | sendFailed : CallErr
  | notConnected : CallErr
  | nilPanic : CallErr

/-- The tail of `call` after the `select` resolves (client.go
lines 393-428). -/
def finishCall : WaitRes → Sum CallErr (Option Json)
  | WaitRes.gotResp r =>
      match r.error with
      | some e => Sum.inl (CallErr.rpc e.code e.message)
      | none => Sum.inr r.result
  | WaitRes.gotClosed => Sum.inl CallErr.nilPanic
  | WaitRes.ctxDone => Sum.inl CallErr.ctxCanceled
  | WaitRes.timedOut => Sum.inl CallErr.requestTimeout

/-- The wait phase of `call` for request `i`: state effect plus returned
value.  The timeout and cancellation branches delete the caller's own
pending entry; the response branch does not (the receive loop already did);
the closed-channel branch never reaches any cleanup — it panics. -/
def callWaitPhase (s : CState) (i : Int) (ch : Option (Nat × ChanEvent))
    (ctx : Option Nat) : CState × Sum CallErr (Option Json) :=
  match firstWait ch ctx with
  | WaitRes.gotResp r => (s, finishCall (WaitRes.gotResp r))
  | WaitRes.gotClosed => (s, Sum.inl CallErr.nilPanic)
  | WaitRes.ctxDone => (stepOp s (Op.cancel i), Sum.inl CallErr.ctxCanceled)
  | WaitRes.timedOut => (stepOp s (Op.cancel i), Sum.inl CallErr.requestTimeout)

/-- `call` when `conn.WriteJSON` fails (client.go lines 377-388): the ID was
allocated and registered, the write fails, the registration is deleted and
the send error returned.  No frame reaches the transport. -/
def callSendFail (s : CState) (w : Nat) : CState × CallErr :=
  let i := wrap64 (s.reqID + 1)
  let s₁ : CState :=
    { s with reqID := i, pending := pInsert s.pending i w,
             allocs := s.allocs ++ [i] }
  ({ s₁ with pending := pRemove s₁.pending i }, CallErr.sendFailed)

/-- The connection handles of `RPCClient` (client.go lines 20-30): `conn`
(WebSocket) and `socketConn` (UNIX socket) as nil/non-nil flags, plus the
shared call state. -/
structure Client where
  conn : Bool
  socketConn : Bool
  isSocket : Bool
  st : CState

/-- `NewRPCClient` (client.go lines 105-112). -/
def newRPCClient : Client :=
  { conn := false, socketConn := false, isSocket := false, st := initState }

/-- A successful `connectUnixSocket` (client.go lines 131-150): sets
`socketConn` and `isSocket`; `conn` is untouched — only `connectWebSocket`
ever assigns it. -/
def connectUnixSocketOk (c : Client) : Client :=
  { c with socketConn := true, isSocket := true }

/-- The entry of `call` (client.go lines 349-363): increment `reqID`, then
check `c.conn == nil` — and only `c.conn`.  When nil, return "not connected"
before any registration or send; otherwise register and send. -/
def callEntry (c : Client) (w : Nat) (method : String) (params : Option Json) :
    Client × Option CallErr :=
  if c.conn then
    ({ c with st := stepOp c.st (Op.call w method params) }, none)
  else
    ({ c with st := { c.st with reqID := wrap64 (c.st.reqID + 1) } },
     some CallErr.notConnected)

/-- Field lookup in a JSON object (first binding wins, as in a marshalled
Go struct, whose keys are distinct). -/
def jLookup : List (String × Json) → String → Option Json
  | [], _ => none
  | e :: rest, k => if e.1 = k then some e.2 else jLookup rest k

/-- `json.Marshal` of `RPCRequest` (client.go lines 33-38, used at
line 379): fields in declaration order; `params,omitempty` omits the key
exactly when the interface is nil — it is never serialized as null. -/
def encodeRequest (r : RPCRequest) : Json :=
  Json.obj ([("jsonrpc", Json.str r.jsonrpc), ("method", Json.str r.method)]
    ++ (match r.params with
        | some p => [("params", p)]
        | none => [])
    ++ [("id", Json.num r.id)])

/-- `json.Unmarshal` into `RPCRequest`, as determined by the struct
declaration and Go's `encoding/json` semantics: a missing key (or JSON
null) leaves the field's zero value — in particular a missing or null
`params` key leaves the interface nil, while any other value is stored in
it; mistyped `jsonrpc`, `method` or `id` fields are unmarshal errors. -/
def decodeRequest (j : Json) : Option RPCRequest :=
  match j with
  | Json.obj kvs =>
      let jr : Option String :=
        match jLookup kvs "jsonrpc" with
        | some (Json.str s) => some s
        | some Json.null => some ""
        | none => some ""
        | _ => none
      let me : Option String :=
        match jLookup kvs "method" with
        | some (Json.str s) => some s
        | some Json.null => some ""
        | none => some ""
        | _ => none
      let pa : Option (Option Json) :=
        match jLookup kvs "params" with
        | none => some none
        | some Json.null => some none
        | some v => some (some v)
      let iv : Option Int :=
        match jLookup kvs "id" with
        | some (Json.num n) => some n
        | some Json.null => some 0
        | none => some 0
        | _ => none
      match jr, me, pa, iv with
      | some a, some b, some c, some d =>
          some { jsonrpc := a, method := b, params := c, id := d }
      | _, _, _, _ => none
  | _ => none

/-- Concrete client state with one pending call (ID 1, waiter 0). -/
def c4State : CState := runOps initState [Op.call 0 "stats.get" none]

/-- Concrete client state with one pending call (ID 1, waiter 0) and its
matching response, for C7. -/
def c7State : CState := runOps initState [Op.call 0 "stats.get" none]

/-- The valid response for the pending call of `c7State`. -/
def c7Resp : RPCResponse :=
  { jsonrpc := "2.0", result := some (Json.num 1), error := none, id := 1 }

theorem runOps_append (s : CState) (l₁ l₂ : List Op) :
    runOps s (l₁ ++ l₂) = runOps (runOps s l₁) l₂ := by
  induction l₁ generalizing s with
  | nil => rfl
  | cons op rest ih => simp [runOps, ih]

theorem callCount_append (l₁ l₂ : List Op) :
    callCount (l₁ ++ l₂) = callCount l₁ + callCount l₂ := by
  induction l₁ with
  | nil => simp [callCount]
  | cons op rest ih =>
      cases op <;> simp [callCount, ih]
      omega

theorem wrap64_add_left (a b : Int) : wrap64 (wrap64 a + b) = wrap64 (a + b) := by
  unfold wrap64
  omega

theorem wrap64_eq_iff {a b : Int} :
    wrap64 a = wrap64 b ↔ (2 ^ 64 : Int) ∣ (a - b) := by
  unfold wrap64
  omega

/-- `wrap64` is injective on any window of at most `2 ^ 64` consecutive
naturals; in particular `allocId` is injective below `2 ^ 64`. -/
theorem allocId_inj {i j : Nat} (hi : i < 2 ^ 64) (hj : j < 2 ^ 64)
    (h : allocId i = allocId j) : i = j := by
  rw [allocId, allocId, wrap64_eq_iff] at h
  omega

theorem pLookup_pRemove (p : List (Int × Nat)) (i j : Int) :
    pLookup (pRemove p j) i = if i = j then none else pLookup p i := by
  induction p with
  | nil => simp [pLookup, pRemove]
  | cons e rest ih =>
      by_cases hej : e.1 = j <;> by_cases hei : e.1 = i <;>
        by_cases hij : i = j <;>
        simp_all [pLookup, pRemove]

theorem pLookup_pInsert (p : List (Int × Nat)) (i j : Int) (w : Nat) :
    pLookup (pInsert p j w) i = if i = j then some w else pLookup p i := by
  simp only [pInsert, pLookup]
  by_cases hji : j = i
  · simp [hji]
  · have hij : i ≠ j := fun h => hji h.symm
    simp [hji, hij, pLookup_pRemove]

theorem pLookup_none_iff (p : List (Int × Nat)) (i : Int) :
    pLookup p i = none ↔ i ∉ p.map Prod.fst := by
  induction p with
  | nil => simp [pLookup]
  | cons e rest ih =>
      by_cases hei : e.1 = i
      · simp [pLookup, hei]
      · have hie : i ≠ e.1 := fun h => hei h.symm
        simp [pLookup, hei, hie, ih]

theorem pRemove_eq_self {p : List (Int × Nat)} {i : Int}
    (h : pLookup p i = none) : pRemove p i = p := by
  induction p with
  | nil => rfl
  | cons e rest ih =>
      by_cases hei : e.1 = i
      · simp [pLookup, hei] at h
      · simp [pLookup, hei] at h
        simp [pRemove, hei, ih h]

theorem pRemove_sublist (p : List (Int × Nat)) (i : Int) :
    (pRemove p i).Sublist p := by
  induction p with
  | nil => simp [pRemove]
  | cons e rest ih =>
      by_cases hei : e.1 = i
      · simp only [pRemove, if_pos hei]
        exact List.Sublist.cons e ih
      · simp only [pRemove, if_neg hei]
        exact List.Sublist.cons₂ e ih

theorem pRemove_keys_nodup {p : List (Int × Nat)}
    (h : (p.map Prod.fst).Nodup) (i : Int) :
    ((pRemove p i).map Prod.fst).Nodup :=
  ((pRemove_sublist p i).map Prod.fst).nodup h

theorem pRemove_not_mem_keys (p : List (Int × Nat)) (i : Int) :
    i ∉ (pRemove p i).map Prod.fst := by
  induction p with
  | nil => simp [pRemove]
  | cons e rest ih =>
      by_cases hei : e.1 = i
      · simpa [pRemove, hei] using ih
      · have hie : i ≠ e.1 := fun h => hei h.symm
        simp [pRemove, hei, hie, ih]

theorem pInsert_keys_nodup {p : List (Int × Nat)}
    (h : (p.map Prod.fst).Nodup) (i : Int) (w : Nat) :
    ((pInsert p i w).map Prod.fst).Nodup := by
  simp only [pInsert, List.map_cons]
  exact List.nodup_cons.mpr ⟨pRemove_not_mem_keys p i, pRemove_keys_nodup h i⟩

theorem goodAt_init : GoodAt initState 0 := by
  refine ⟨?_, by simp [initState], by simp [initState]⟩
  show (0 : Int) = wrap64 0
  unfold wrap64
  decide

theorem pInsert_keys_subset {p : List (Int × Nat)} {i j : Int} {w : Nat}
    (h : i ∈ (pInsert p j w).map Prod.fst) : i = j ∨ i ∈ p.map Prod.fst := by
  simp only [pInsert, List.map_cons, List.mem_cons] at h
  rcases h with h | h
  · exact Or.inl h
  · exact Or.inr (List.map_subset Prod.fst ((pRemove_sublist p j).subset) h)

theorem pRemove_keys_subset {p : List (Int × Nat)} {i j : Int}
    (h : i ∈ (pRemove p j).map Prod.fst) : i ∈ p.map Prod.fst :=
  List.map_subset Prod.fst ((pRemove_sublist p j).subset) h

theorem goodAt_step {s : CState} {n : Nat} (h : GoodAt s n) (op : Op) :
    GoodAt (stepOp s op) (n + callCount [op]) := by
  obtain ⟨hid, hal, hpend⟩ := h
  cases op with
  | call w method params =>
      show GoodAt _ (n + 1)
      refine ⟨?_, ?_, ?_⟩
      · show wrap64 (s.reqID + 1) = wrap64 ((n : Int) + 1)
        rw [hid, wrap64_add_left]
      · show s.allocs ++ [wrap64 (s.reqID + 1)] = _
        rw [hid, wrap64_add_left, hal, List.range_succ, List.map_append]
        rfl
      · intro i hi
        rcases pInsert_keys_subset hi with hi | hi
        · exact ⟨n, Nat.lt_succ_self n, by rw [hi, hid, wrap64_add_left]; rfl⟩
        · obtain ⟨k, hk, hik⟩ := hpend i hi
          exact ⟨k, Nat.lt_succ_of_lt hk, hik⟩
  | deliver r =>
      show GoodAt _ (n + 0)
      simp only [Nat.add_zero, stepOp]
      cases hl : pLookup s.pending r.id with
      | none => exact ⟨hid, hal, hpend⟩
      | some w =>
          exact ⟨hid, hal, fun i hi => hpend i (pRemove_keys_subset hi)⟩
  | cancel j =>
      show GoodAt _ (n + 0)
      simp only [Nat.add_zero, stepOp]
      cases hl : pLookup s.pending j with
      | none => exact ⟨hid, hal, hpend⟩
      | some w =>
          exact ⟨hid, hal, fun i hi => hpend i (pRemove_keys_subset hi)⟩
  | drain =>
      show GoodAt _ (n + 0)
      exact ⟨hid, hal, by simp [stepOp]⟩

theorem callCount_cons (op : Op) (rest : List Op) :
    callCount (op :: rest) = callCount [op] + callCount rest := by
  cases op <;> simp [callCount, Nat.add_comm]

theorem goodAt_run {s : CState} {n : Nat} (h : GoodAt s n) (ops : List Op) :
    GoodAt (runOps s ops) (n + callCount ops) := by
  induction ops generalizing s n with
  | nil => simpa [runOps, callCount] using h
  | cons op rest ih =>
      have h₂ := ih (goodAt_step h op)
      show GoodAt (runOps (stepOp s op) rest) _
      rw [callCount_cons, ← Nat.add_assoc]
      exact h₂

theorem goodAt_initRun (ops : List Op) :
    GoodAt (runOps initState ops) (callCount ops) := by
  have := goodAt_run goodAt_init ops
  simpa using this

theorem pendingKeys_nodup_step {s : CState}
    (h : (s.pending.map Prod.fst).Nodup) (op : Op) :
    (((stepOp s op).pending).map Prod.fst).Nodup := by
  cases op with
  | call w method params => exact pInsert_keys_nodup h _ _
  | deliver r =>
      simp only [stepOp]
      cases pLookup s.pending r.id with
      | none => exact h
      | some w => exact pRemove_keys_nodup h _
  | cancel i =>
      simp only [stepOp]
      cases pLookup s.pending i with
      | none => exact h
      | some w => exact pRemove_keys_nodup h _
  | drain => simp [stepOp]

theorem pendingKeys_nodup_run {s : CState}
    (h : (s.pending.map Prod.fst).Nodup) (ops : List Op) :
    (((runOps s ops).pending).map Prod.fst).Nodup := by
  induction ops generalizing s with
  | nil => exact h
  | cons op rest ih => exact ih (pendingKeys_nodup_step h op)

/-- C1.  For every trace of concurrently dispatched calls on one connection
(their mutex-serialized interleaving being an arbitrary `ops` trace with at
most `2 ^ 64` calls — the `int64` ID space), the allocated request IDs are
pairwise distinct, the `pending` map never holds two channels under the same
ID, and the ID allocated by each `call` is never one that is still live in
the map at registration time (client.go lines 349-363: `c.reqID++` under
`c.mutex`, then `c.pending[reqID] = respCh`). -/
theorem call_ids_pairwise_distinct (ops : List Op)
    (h : callCount ops ≤ 2 ^ 64) :
    ((runOps initState ops).allocs).Nodup ∧
    (((runOps initState ops).pending).map Prod.fst).Nodup ∧
    ∀ pre w method params suf, ops = pre ++ Op.call w method params :: suf →
      pLookup (runOps initState pre).pending
        (wrap64 ((runOps initState pre).reqID + 1)) = none := by
  obtain ⟨hid, hal, hpend⟩ := goodAt_initRun ops
  refine ⟨?_, pendingKeys_nodup_run (by simp [initState]) ops, ?_⟩
  · rw [hal]
    refine List.Nodup.map_on ?_ (List.nodup_range _)
    intro x hx y hy hxy
    rw [List.mem_range] at hx hy
    exact allocId_inj (lt_of_lt_of_le hx h) (lt_of_lt_of_le hy h) hxy
  · intro pre w method params suf hops
    obtain ⟨hid', hal', hpend'⟩ := goodAt_initRun pre
    have hcc : callCount pre < 2 ^ 64 := by
      have := callCount_append pre (Op.call w method params :: suf)
      rw [← hops] at this
      rw [callCount_cons] at this
      simp [callCount] at this
      omega
    rw [hid', wrap64_add_left]
    rw [pLookup_none_iff]
    intro hmem
    obtain ⟨k, hk, hik⟩ := hpend' _ hmem
    have : k = callCount pre := allocId_inj (lt_trans hk hcc) hcc hik.symm
    omega

/-- Witness for C1 at the concrete trace `c1Ops`. -/
theorem call_ids_pairwise_distinct_witness :
    callCount c1Ops ≤ 2 ^ 64 ∧
    (((runOps initState c1Ops).allocs).Nodup ∧
     (((runOps initState c1Ops).pending).map Prod.fst).Nodup ∧
     ∀ pre w method params suf,
       c1Ops = pre ++ Op.call w method params :: suf →
         pLookup (runOps initState pre).pending
           (wrap64 ((runOps initState pre).reqID + 1)) = none) :=
  ⟨by decide, call_ids_pairwise_distinct c1Ops (by decide)⟩

/-- C2.  If calls A and B are pending under distinct IDs and the transport
delivers B's response before A's, the receive loop (`handleMessages`,
client.go lines 329-339) still hands each response to the waiter registered
under its own ID — and the reverse arrival order delivers exactly the same
pairs: correctness depends only on ID correlation, never on arrival
order. -/
theorem out_of_order_delivery (s : CState) (A B : Nat) (idA idB : Int)
    (rA rB : RPCResponse)
    (hA : pLookup s.pending idA = some A) (hB : pLookup s.pending idB = some B)
    (hne : idA ≠ idB) (hrA : rA.id = idA) (hrB : rB.id = idB) :
    (runOps s [Op.deliver rB, Op.deliver rA]).delivered
        = s.delivered ++ [(B, rB), (A, rA)] ∧
    (runOps s [Op.deliver rA, Op.deliver rB]).delivered
        = s.delivered ++ [(A, rA), (B, rB)] := by
  have hrmA : pLookup (pRemove s.pending idB) idA = some A := by
    rw [pLookup_pRemove, if_neg hne, hA]
  have hrmB : pLookup (pRemove s.pending idA) idB = some B := by
    rw [pLookup_pRemove, if_neg (Ne.symm hne), hB]
  constructor
  · show (stepOp (stepOp s (Op.deliver rB)) (Op.deliver rA)).delivered = _
    rw [show stepOp s (Op.deliver rB)
          = { s with pending := pRemove s.pending idB,
                     delivered := s.delivered ++ [(B, rB)],
                     resolved := s.resolved ++ [idB] } by
        simp [stepOp, hrB, hB]]
    simp [stepOp, hrA, hrmA]
  · show (stepOp (stepOp s (Op.deliver rA)) (Op.deliver rB)).delivered = _
    rw [show stepOp s (Op.deliver rA)
          = { s with pending := pRemove s.pending idA,
                     delivered := s.delivered ++ [(A, rA)],
                     resolved := s.resolved ++ [idA] } by
        simp [stepOp, hrA, hA]]
    simp [stepOp, hrB, hrmB]

theorem resInv_init : ResInv initState := by
  intro i
  simp [initState, pLookup]

theorem count_singleton_self (i : Int) : List.count i [i] = 1 := by
  rw [List.count_singleton']
  exact if_pos rfl

theorem count_singleton_ne {i x : Int} (h : i ≠ x) : List.count i [x] = 0 := by
  rw [List.count_singleton']
  exact if_neg fun hc => h hc.symm

theorem resInv_step {s : CState}
    (hnd : (s.pending.map Prod.fst).Nodup) (h : ResInv s) (op : Op) :
    ResInv (stepOp s op) := by
  cases op with
  | call w method params =>
      intro i
      have hi := h i
      have hind : (if pLookup s.pending i = none then 0 else 1) = 0 ∨
          (if pLookup s.pending i = none then 0 else 1) = 1 := by
        split <;> simp
      by_cases hii : i = wrap64 (s.reqID + 1)
      · subst hii
        simp [stepOp, List.count_append, pLookup_pInsert, count_singleton_self]
        omega
      · simp [stepOp, List.count_append, pLookup_pInsert, if_neg hii,
          count_singleton_ne hii]
        omega
  | deliver r =>
      intro i
      have hi := h i
      cases hl : pLookup s.pending r.id with
      | none => simpa [stepOp, hl] using hi
      | some w =>
          by_cases hii : i = r.id
          · subst hii
            rw [hl] at hi
            simp only [Option.some_ne_none, if_neg, ite_false] at hi
            simp [stepOp, hl, List.count_append, pLookup_pRemove,
              count_singleton_self]
            omega
          · simp [stepOp, hl, List.count_append, pLookup_pRemove, if_neg hii,
              count_singleton_ne hii]
            omega
  | cancel j =>
      intro i
      have hi := h i
      cases hl : pLookup s.pending j with
      | none => simpa [stepOp, hl] using hi
      | some w =>
          by_cases hii : i = j
          · subst hii
            rw [hl] at hi
            simp only [Option.some_ne_none, if_neg, ite_false] at hi
            simp [stepOp, hl, List.count_append, pLookup_pRemove,
              count_singleton_self]
            omega
          · simp [stepOp, hl, List.count_append, pLookup_pRemove, if_neg hii,
              count_singleton_ne hii]
            omega
  | drain =>
      intro i
      have hi := h i
      have hkeys : (s.pending.map Prod.fst).count i
          ≤ (if pLookup s.pending i = none then 0 else 1) := by
        cases hl : pLookup s.pending i with
        | none =>
            rw [pLookup_none_iff] at hl
            simp [List.count_eq_zero_of_not_mem hl]
        | some w =>
            simpa using (List.nodup_iff_count_le_one.mp hnd) i
      simp [stepOp, List.count_append, pLookup]
      omega

theorem resInv_run {s : CState}
    (hnd : (s.pending.map Prod.fst).Nodup) (h : ResInv s) (ops : List Op) :
    ResInv (runOps s ops) := by
  induction ops generalizing s with
  | nil => exact h
  | cons op rest ih =>
      exact ih (pendingKeys_nodup_step hnd op) (resInv_step hnd h op)

/-- The allocation history of any trace with at most `2 ^ 64` calls is
duplicate-free. -/
theorem allocs_count_le_one (ops : List Op) (h : callCount ops ≤ 2 ^ 64)
    (i : Int) : ((runOps initState ops).allocs).count i ≤ 1 := by
  obtain ⟨-, hal, -⟩ := goodAt_initRun ops
  rw [hal]
  refine List.nodup_iff_count_le_one.mp ?_ i
  refine List.Nodup.map_on ?_ (List.nodup_range _)
  intro x hx y hy hxy
  rw [List.mem_range] at hx hy
  exact allocId_inj (lt_of_lt_of_le hx h) (lt_of_lt_of_le hy h) hxy

/-- Witness for C2: two concrete calls answered out of order each still
receive exactly their own response. -/
theorem out_of_order_delivery_witness :
    (pLookup c2State.pending 1 = some 10 ∧ pLookup c2State.pending 2 = some 11 ∧
     (1 : Int) ≠ 2 ∧ c2RespA.id = 1 ∧ c2RespB.id = 2) ∧
    ((runOps c2State [Op.deliver c2RespB, Op.deliver c2RespA]).delivered
        = c2State.delivered ++ [(11, c2RespB), (10, c2RespA)] ∧
     (runOps c2State [Op.deliver c2RespA, Op.deliver c2RespB]).delivered
        = c2State.delivered ++ [(10, c2RespA), (11, c2RespB)]) :=
  ⟨⟨by decide, by decide, by decide, rfl, rfl⟩,
   out_of_order_delivery c2State 10 11 1 2 c2RespA c2RespB
     (by decide) (by decide) (by decide) rfl rfl⟩

/-- C3.  Along any mutex-serialized trace with at most `2 ^ 64` calls, each
request ID's PendingCall is resolved at most once, whether by response
delivery (`handleMessages`, client.go lines 330-339), timeout or caller
cancellation (`call`, lines 415-428), or teardown (`Disconnect`,
lines 608-614); and a resolution attempt for an ID that is not registered is
a no-op on the whole state — discarded, never a crash or a second
delivery. -/
theorem at_most_one_resolution (ops : List Op)
    (h : callCount ops ≤ 2 ^ 64) :
    (∀ i : Int, ((runOps initState ops).resolved).count i ≤ 1) ∧
    (∀ s : CState, ∀ r : RPCResponse,
       pLookup s.pending r.id = none → stepOp s (Op.deliver r) = s) ∧
    (∀ s : CState, ∀ i : Int,
       pLookup s.pending i = none → stepOp s (Op.cancel i) = s) := by
  refine ⟨?_, ?_, ?_⟩
  · intro i
    have hres := resInv_run (by simp [initState]) resInv_init ops i
    have hcnt := allocs_count_le_one ops h i
    omega
  · intro s r hl
    simp [stepOp, hl]
  · intro s i hl
    simp [stepOp, hl]

/-- Witness for C3 at a concrete trace: two calls, the first resolved by
response delivery, a duplicate response for the same ID then delivered
again, the second call timed out, and the connection drained. -/
theorem at_most_one_resolution_witness :
    callCount [Op.call 0 "stats.get" none, Op.call 1 "user.list" none,
        Op.deliver { jsonrpc := "2.0", result := none, error := none, id := 1 },
        Op.deliver { jsonrpc := "2.0", result := none, error := none, id := 1 },
        Op.cancel 2, Op.drain] ≤ 2 ^ 64 ∧
    ((∀ i : Int, ((runOps initState
        [Op.call 0 "stats.get" none, Op.call 1 "user.list" none,
         Op.deliver { jsonrpc := "2.0", result := none, error := none, id := 1 },
         Op.deliver { jsonrpc := "2.0", result := none, error := none, id := 1 },
         Op.cancel 2, Op.drain]).resolved).count i ≤ 1) ∧
     (∀ s : CState, ∀ r : RPCResponse,
        pLookup s.pending r.id = none → stepOp s (Op.deliver r) = s) ∧
     (∀ s : CState, ∀ i : Int,
        pLookup s.pending i = none → stepOp s (Op.cancel i) = s)) :=
  ⟨by decide,
   at_most_one_resolution
     [Op.call 0 "stats.get" none, Op.call 1 "user.list" none,
      Op.deliver { jsonrpc := "2.0", result := none, error := none, id := 1 },
      Op.deliver { jsonrpc := "2.0", result := none, error := none, id := 1 },
      Op.cancel 2, Op.drain] (by decide)⟩

/-- C4 evaluated at the failing input (one pending call, then teardown):
`Disconnect` closes the waiter's channel, the waiting caller's `select`
receives the resulting nil pointer and `call` dereferences it
(`resp.Error`, client.go line 397) — a panic, not a ConnectionError; and a
receive-loop exit (`handleMessages` breaking on a read error) performs no
drain at all — the pending entry survives the loop, so the caller hangs
until the 30 s timeout and then gets "request timeout", again not a
ConnectionError.  `CallErr` — the faithful translation of `call`'s
outcomes — has no connection-lost constructor reachable from the wait
phase. -/
theorem teardown_no_connection_error :
    (stepOp c4State Op.drain).closed = [0] ∧
    callWaitPhase (stepOp c4State Op.drain) 1 (some (0, ChanEvent.closed)) none
      = (stepOp c4State Op.drain, Sum.inl CallErr.nilPanic) ∧
    handleMessagesRun c4State [Frame.bad] = c4State ∧
    pLookup (handleMessagesRun c4State [Frame.bad]).pending 1 = some 0 ∧
    callWaitPhase (handleMessagesRun c4State [Frame.bad]) 1 none none
      = (stepOp c4State (Op.cancel 1), Sum.inl CallErr.requestTimeout) :=
  ⟨by decide, rfl, rfl, by decide, rfl⟩

/-- C5.  If a registered call's response does not arrive within the default
30-second deadline (`requestTimeoutSeconds = 30`, client.go line 422) and
the caller's context does not fire earlier, the `select` takes the timeout
branch: `call` returns the "request timeout" error and deletes the
request's entry from `pending`, so a late response for that ID afterwards
finds no registered waiter and is discarded without error (the whole state
is unchanged by it). -/
theorem timeout_cancels_registration (s : CState) (i : Int) (w : Nat)
    (ch : Option (Nat × ChanEvent)) (ctx : Option Nat)
    (hw : pLookup s.pending i = some w)
    (hch : ∀ t e, ch = some (t, e) → requestTimeoutSeconds < t)
    (hctx : ∀ t, ctx = some t → requestTimeoutSeconds < t) :
    requestTimeoutSeconds = 30 ∧
    (callWaitPhase s i ch ctx).2 = Sum.inl CallErr.requestTimeout ∧
    pLookup ((callWaitPhase s i ch ctx).1).pending i = none ∧
    ∀ r : RPCResponse, r.id = i →
      stepOp ((callWaitPhase s i ch ctx).1) (Op.deliver r)
        = (callWaitPhase s i ch ctx).1 := by
  have hfw : firstWait ch ctx = WaitRes.timedOut := by
    cases ch with
    | none =>
        cases ctx with
        | none => rfl
        | some t₂ =>
            have h₂ := hctx t₂ rfl
            have hn₂ : ¬t₂ ≤ requestTimeoutSeconds := by omega
            simp [firstWait, hn₂]
    | some p =>
        obtain ⟨t₁, e⟩ := p
        have h₁ := hch t₁ e rfl
        have hn₁ : ¬t₁ ≤ requestTimeoutSeconds := by omega
        cases ctx with
        | none => simp [firstWait, hn₁]
        | some t₂ =>
            have h₂ := hctx t₂ rfl
            have hn₂ : ¬t₂ ≤ requestTimeoutSeconds := by omega
            simp [firstWait, hn₁, hn₂]
  have hcw : callWaitPhase s i ch ctx
      = (stepOp s (Op.cancel i), Sum.inl CallErr.requestTimeout) := by
    rw [callWaitPhase, hfw]
  have hcancel : stepOp s (Op.cancel i)
      = { s with pending := pRemove s.pending i,
                 resolved := s.resolved ++ [i] } := by
    simp [stepOp, hw]
  rw [hcw, hcancel]
  have hgone : pLookup (pRemove s.pending i) i = none := by
    rw [pLookup_pRemove]
    simp
  refine ⟨rfl, rfl, hgone, ?_⟩
  intro r hr
  have hnone : pLookup (pRemove s.pending i) r.id = none := by
    rw [hr]
    exact hgone
  simp [stepOp, hnone]

/-- Witness for C5: one registered call, a forever-silent transport and no
caller cancellation. -/
theorem timeout_cancels_registration_witness :
    (pLookup (runOps initState [Op.call 7 "user.list" none]).pending 1
        = some 7 ∧
     (∀ t e, (none : Option (Nat × ChanEvent)) = some (t, e) →
        requestTimeoutSeconds < t) ∧
     (∀ t, (none : Option Nat) = some t → requestTimeoutSeconds < t)) ∧
    (requestTimeoutSeconds = 30 ∧
     (callWaitPhase (runOps initState [Op.call 7 "user.list" none]) 1 none
         none).2 = Sum.inl CallErr.requestTimeout ∧
     pLookup ((callWaitPhase (runOps initState [Op.call 7 "user.list" none])
         1 none none).1).pending 1 = none ∧
     ∀ r : RPCResponse, r.id = 1 →
       stepOp ((callWaitPhase (runOps initState
           [Op.call 7 "user.list" none]) 1 none none).1) (Op.deliver r)
         = (callWaitPhase (runOps initState [Op.call 7 "user.list" none]) 1
             none none).1) :=
  ⟨⟨by decide, ⟨(fun t e h => nomatch h), (fun t h => nomatch h)⟩⟩,
   timeout_cancels_registration (runOps initState
       [Op.call 7 "user.list" none]) 1 7 none none (by decide)
     (fun t e h => nomatch h) (fun t h => nomatch h)⟩

/-- C6.  When the write of the encoded request frame fails, `call` deletes
the just-registered entry for the fresh ID before returning the send error
(client.go lines 382-388), leaving the pending map exactly as if the call
had never been registered — no response is awaited.  (The freshness
hypothesis is exactly what C1 establishes for every reachable state.) -/
theorem send_failure_cancels_registration (s : CState) (w : Nat)
    (hfresh : pLookup s.pending (wrap64 (s.reqID + 1)) = none) :
    (callSendFail s w).1.pending = s.pending ∧
    (callSendFail s w).2 = CallErr.sendFailed ∧
    (callSendFail s w).1.delivered = s.delivered := by
  refine ⟨?_, rfl, rfl⟩
  have h₁ : pRemove s.pending (wrap64 (s.reqID + 1)) = s.pending :=
    pRemove_eq_self hfresh
  simp [callSendFail, pInsert, pRemove, h₁]

/-- Witness for C6 on a fresh client. -/
theorem send_failure_cancels_registration_witness :
    pLookup initState.pending (wrap64 (initState.reqID + 1)) = none ∧
    ((callSendFail initState 3).1.pending = initState.pending ∧
     (callSendFail initState 3).2 = CallErr.sendFailed ∧
     (callSendFail initState 3).1.delivered = initState.delivered) :=
  ⟨by decide, send_failure_cancels_registration initState 3 (by decide)⟩

/-- Counterexample to C7 as stated: on the WebSocket receive loop
(`handleMessages`), a malformed frame does NOT merely get logged and
skipped — `conn.ReadJSON` returns an error and the loop `break`s (client.go
lines 311-316).  With one pending call, processing a malformed frame
followed by that call's valid response is not the same as processing the
response alone: the response is never delivered, so the malformed frame did
affect another pending call's resolution. -/
theorem malformed_frame_terminates_loop :
    handleMessagesRun c7State [Frame.bad, Frame.good c7Resp]
      ≠ handleMessagesRun c7State [Frame.good c7Resp] := by
  intro h
  have hdel := congrArg CState.delivered h
  rw [show (handleMessagesRun c7State [Frame.bad, Frame.good c7Resp]).delivered
        = [] from rfl,
      show (handleMessagesRun c7State [Frame.good c7Resp]).delivered
        = [(0, c7Resp)] from rfl] at hdel
  exact absurd hdel (by simp)

/-- C7 amended.  Only the UNIX-socket receive loop (`handleSocketMessages`)
logs a decode failure and continues to the next frame, leaving every other
pending call's resolution unaffected; the WebSocket receive loop
(`handleMessages`) instead exits on any read error — including a single
malformed frame, not only transport closure — leaving the state exactly as
it was. -/
theorem receive_loop_decode_failure (s : CState) (rest : List SockLine)
    (frames : List Frame) :
    handleSocketMessagesRun s (SockLine.bad :: rest)
      = handleSocketMessagesRun s rest ∧
    handleMessagesRun s (Frame.bad :: frames) = s :=
  ⟨rfl, rfl⟩

/-- C9.  Decoding the object produced by encoding a request reconstructs
the original method, params and id for every representable request —
params being either absent or a structured value (never the JSON null
literal, which `params,omitempty` can never emit) — and the encoder
distinguishes absent params (the key is omitted from the object entirely)
from params present as an empty structure. -/
theorem encode_decode_roundtrip (m : String) (p : Option Json) (i : Int)
    (hp : p ≠ some Json.null) :
    decodeRequest (encodeRequest
        { jsonrpc := "2.0", method := m, params := p, id := i })
      = some { jsonrpc := "2.0", method := m, params := p, id := i } ∧
    (∀ m' : String, ∀ i' : Int,
       encodeRequest { jsonrpc := "2.0", method := m', params := none,
                       id := i' }
         = Json.obj [("jsonrpc", Json.str "2.0"), ("method", Json.str m'),
                     ("id", Json.num i')]) ∧
    (∀ m' : String, ∀ i' : Int,
       encodeRequest { jsonrpc := "2.0", method := m',
                       params := some (Json.obj []), id := i' }
         = Json.obj [("jsonrpc", Json.str "2.0"), ("method", Json.str m'),
                     ("params", Json.obj []), ("id", Json.num i')]) := by
  refine ⟨?_, fun m' i' => rfl, fun m' i' => rfl⟩
  cases p with
  | none => simp [encodeRequest, decodeRequest, jLookup]
  | some v =>
      cases v with
      | null => exact absurd rfl hp
      | bool b => simp [encodeRequest, decodeRequest, jLookup]
      | num n => simp [encodeRequest, decodeRequest, jLookup]
      | str s => simp [encodeRequest, decodeRequest, jLookup]
      | arr elems => simp [encodeRequest, decodeRequest, jLookup]
      | obj fields => simp [encodeRequest, decodeRequest, jLookup]

/-- Witness for C9 at params = the empty structure. -/
theorem encode_decode_roundtrip_witness :
    (some (Json.obj []) ≠ some Json.null) ∧
    (decodeRequest (encodeRequest
        { jsonrpc := "2.0", method := "stats.get",
          params := some (Json.obj []), id := 1 })
      = some { jsonrpc := "2.0", method := "stats.get",
               params := some (Json.obj []), id := 1 } ∧
     (∀ m' : String, ∀ i' : Int,
        encodeRequest { jsonrpc := "2.0", method := m', params := none,
                        id := i' }
          = Json.obj [("jsonrpc", Json.str "2.0"), ("method", Json.str m'),
                      ("id", Json.num i')]) ∧
     (∀ m' : String, ∀ i' : Int,
        encodeRequest { jsonrpc := "2.0", method := m',
                        params := some (Json.obj []), id := i' }
          = Json.obj [("jsonrpc", Json.str "2.0"), ("method", Json.str m'),
                      ("params", Json.obj []), ("id", Json.num i')])) :=
  ⟨by simp,
   encode_decode_roundtrip "stats.get" (some (Json.obj [])) 1 (by simp)⟩

/-- C10.  A client whose connection was established through the UNIX-socket
transport has `socketConn` set but `conn` still nil (`connectUnixSocket`,
client.go lines 131-150, assigns only `socketConn`), and `call` checks only
`c.conn` (line 353): every invocation returns the "not connected" error
before registering a PendingCall or sending any frame. -/
theorem socket_transport_calls_fail (c : Client) (w : Nat) (method : String)
    (params : Option Json)
    (hs : c.socketConn = true) (hc : c.conn = false) :
    (callEntry c w method params).2 = some CallErr.notConnected ∧
    (callEntry c w method params).1.st.pending = c.st.pending ∧
    (callEntry c w method params).1.st.sent = c.st.sent := by
  simp [callEntry, hc]

/-- Witness for C10: a fresh client taken through a successful UNIX-socket
connect. -/
theorem socket_transport_calls_fail_witness :
    ((connectUnixSocketOk newRPCClient).socketConn = true ∧
     (connectUnixSocketOk newRPCClient).conn = false) ∧
    ((callEntry (connectUnixSocketOk newRPCClient) 0 "stats.get" none).2
        = some CallErr.notConnected ∧
     (callEntry (connectUnixSocketOk newRPCClient) 0 "stats.get" none).1.st.pending
        = (connectUnixSocketOk newRPCClient).st.pending ∧
     (callEntry (connectUnixSocketOk newRPCClient) 0 "stats.get" none).1.st.sent
        = (connectUnixSocketOk newRPCClient).st.sent) :=
  ⟨⟨rfl, rfl⟩,
   socket_transport_calls_fail (connectUnixSocketOk newRPCClient) 0
     "stats.get" none rfl rfl⟩
